import Mathlib

/-!
Shallow embedding of the inventory manager in `app.py`
(tread-co-inventory-manager-plus).

The SQLite store is modelled as two lists kept in insertion (rowid) order:
`items` and `transactions`.  Optional (NULLable) columns are `Option`
values.  Python integers are `Int`.  The per-call timestamp produced by
`datetime.utcnow().isoformat()` is passed in as an opaque string `ts`.
SQLite auto-assignment of `id INTEGER PRIMARY KEY` on a NULL insert is
modelled as one more than the largest id in the table (exact for the
non-negative ids the application produces; 1 on an empty table).
-/

namespace Inventory

/-- A canonical row as produced by `read_excel_to_df`:
columns id, tyre_size, company, series, qty. -/
structure Row where
  id : Option Int
  tyre_size : Option String
  company : Option String
  series : Option String
  qty : Int
deriving DecidableEq

/-- One row of the `items` table. -/
structure Item where
  id : Int
  tyre_size : Option String
  company : Option String
  series : Option String
  qty : Int
  last_updated : String
deriving DecidableEq

/-- One row of the `transactions` (audit) table. -/
structure Txn where
  item_id : Int
  tyre_size : Option String
  company : Option String
  series : Option String
  change : Int
  reason : String
  timestamp : String
  note : Option String
deriving DecidableEq

/-- The persistent store: rows of both tables, in rowid order. -/
structure DB where
  items : List Item
  txns : List Txn
deriving DecidableEq

def emptyDB : DB := ⟨[], []⟩

/-- Largest item id (0 on an empty table). -/
def maxId (l : List Item) : Int :=
  l.foldr (fun it m => max it.id m) 0

/-- SQLite rowid auto-assignment (`cur.lastrowid` after inserting NULL id). -/
def nextId (db : DB) : Int := maxId db.items + 1

/-- `SELECT ... FROM items WHERE id = ?` followed by `fetchone`. -/
def lookupId (l : List Item) (i : Int) : Option Item :=
  l.find? (fun it => it.id == i)

def findById (db : DB) (i : Int) : Option Item :=
  lookupId db.items i

/-- `UPDATE items SET ... WHERE id = ?`: rewrite every row whose id matches. -/
def updateWhereId (l : List Item) (i : Int) (f : Item → Item) : List Item :=
  l.map (fun it => if it.id = i then f it else it)

/-- SQL equality `a = b` under three-valued logic: true only when both
sides are non-NULL and equal (a NULL operand never matches). -/
def sqlEq (a b : Option String) : Bool :=
  match a, b with
  | some x, some y => x == y
  | _, _ => false

/-- The pattern `(col = ? OR (col IS NULL AND ? IS NULL))` used for the
company/series columns: NULL matches exactly NULL. -/
def nullEq (a b : Option String) : Bool :=
  match a, b with
  | some x, some y => x == y
  | none, none => true
  | _, _ => false

/-- The WHERE clause of the signature lookup in `upsert_items_from_df`
and `find_item_by_signature`. -/
def sigMatches (tyre_size company series : Option String) (it : Item) : Bool :=
  sqlEq it.tyre_size tyre_size && nullEq it.company company && nullEq it.series series

/-- Signature lookup (`fetchone`: first matching row in table order). -/
def findSig (db : DB) (tyre_size company series : Option String) : Option Item :=
  db.items.find? (sigMatches tyre_size company series)

/-- One iteration of the `rows_with_id` loop of `upsert_items_from_df`. -/
def upsertRowWithId (ts : String) (db : DB) (item_id : Int)
    (tyre_size company series : Option String) (qty : Int) : DB :=
  match findById db item_id with
  | some found =>
      let new_qty := found.qty + qty
      { items := updateWhereId db.items item_id
          (fun it => { it with
              tyre_size := tyre_size, company := company, series := series,
              qty := new_qty, last_updated := ts }),
        txns := db.txns ++
          [⟨item_id, tyre_size, company, series, qty, "import_upsert", ts,
            some "import from excel"⟩] }
  | none =>
      { items := db.items ++ [⟨item_id, tyre_size, company, series, qty, ts⟩],
        txns := db.txns ++
          [⟨item_id, tyre_size, company, series, qty, "import_upsert", ts,
            some "import from excel"⟩] }

/-- One iteration of the `rows_no_id` loop of `upsert_items_from_df`. -/
def upsertRowNoId (ts : String) (db : DB)
    (tyre_size company series : Option String) (qty : Int) : DB :=
  match findSig db tyre_size company series with
  | some found =>
      let new_qty := found.qty + qty
      { items := updateWhereId db.items found.id
          (fun it => { it with qty := new_qty, last_updated := ts }),
        txns := db.txns ++
          [⟨found.id, tyre_size, company, series, qty, "import_merge_signature", ts,
            some "imported by signature"⟩] }
  | none =>
      let new_id := nextId db
      { items := db.items ++ [⟨new_id, tyre_size, company, series, qty, ts⟩],
        txns := db.txns ++
          [⟨new_id, tyre_size, company, series, qty, "import_new", ts,
            some "new row from excel"⟩] }

/-- Dispatch a single canonical row to the id path or the signature path. -/
def upsertRow (ts : String) (db : DB) (r : Row) : DB :=
  match r.id with
  | some i => upsertRowWithId ts db i r.tyre_size r.company r.series r.qty
  | none => upsertRowNoId ts db r.tyre_size r.company r.series r.qty

/-- `upsert_items_from_df`: first the loop over `df_in[df_in.id.notna()]`,
then the loop over `df_in[df_in.id.isna()]`; a single commit at the end. -/
def upsert_items_from_df (ts : String) (df : List Row) (db : DB) : DB :=
  let rows_with_id := df.filter (fun r => r.id.isSome)
  let rows_no_id := df.filter (fun r => r.id.isNone)
  List.foldl (upsertRow ts) (List.foldl (upsertRow ts) db rows_with_id) rows_no_id

/-- `add_stock`: returns the (possibly auto-assigned) item id together
with the new store. -/
def add_stock (ts : String) (db : DB) (item_id : Option Int)
    (tyre_size company series : Option String) (qty : Int) (note : Option String) :
    DB × Int :=
  match item_id with
  | some i =>
      match findById db i with
      | some r =>
          let new_qty := r.qty + qty
          ({ items := updateWhereId db.items i
               (fun it => { it with
                   qty := new_qty, tyre_size := tyre_size, company := company,
                   series := series, last_updated := ts }),
             txns := db.txns ++
               [⟨i, tyre_size, company, series, qty, "stock_in", ts, note⟩] }, i)
      | none =>
          ({ items := db.items ++ [⟨i, tyre_size, company, series, qty, ts⟩],
             txns := db.txns ++
               [⟨i, tyre_size, company, series, qty, "stock_in", ts, note⟩] }, i)
  | none =>
      let i := nextId db
      ({ items := db.items ++ [⟨i, tyre_size, company, series, qty, ts⟩],
         txns := db.txns ++
           [⟨i, tyre_size, company, series, qty, "stock_in", ts, note⟩] }, i)

/-- Errors raised by the stock-removal operations (`ValueError` in the
source, distinguished here by which message is produced). -/
inductive StockError where
  | notFound : StockError
  | insufficientStock (current requested : Int) : StockError
deriving DecidableEq

/-- `remove_stock_by_id`.  An error leaves the store unchanged (the
source raises before any write and closes the connection uncommitted). -/
def remove_stock_by_id (ts : String) (db : DB) (item_id : Int) (qty : Int)
    (reason : String) (note : Option String) : DB × Option StockError :=
  match findById db item_id with
  | none => (db, some StockError.notFound)
  | some row =>
      if qty > row.qty then (db, some (StockError.insufficientStock row.qty qty))
      else
        let new_qty := row.qty - qty
        ({ items := updateWhereId db.items item_id
             (fun it => { it with qty := new_qty, last_updated := ts }),
           txns := db.txns ++
             [⟨item_id, row.tyre_size, row.company, row.series, -qty, reason, ts, note⟩] },
         none)

/-- `find_item_by_signature`. -/
def find_item_by_signature (db : DB) (tyre_size company series : Option String) :
    Option Item :=
  findSig db tyre_size company series

/-- `remove_stock_by_signature`. -/
def remove_stock_by_signature (ts : String) (db : DB)
    (tyre_size company series : Option String) (qty : Int)
    (reason : String) (note : Option String) : DB × Option StockError :=
  match find_item_by_signature db tyre_size company series with
  | none => (db, some StockError.notFound)
  | some found =>
      if qty > found.qty then (db, some (StockError.insufficientStock found.qty qty))
      else
        let new_qty := found.qty - qty
        ({ items := updateWhereId db.items found.id
             (fun it => { it with qty := new_qty, last_updated := ts }),
           txns := db.txns ++
             [⟨found.id, found.tyre_size, found.company, found.series, -qty, reason, ts,
               note⟩] },
         none)

/-- A spreadsheet cell as pandas delivers it: NaN/missing (`blank`),
text, or a numeric value (integer-valued cells). -/
inductive Cell where
  | blank : Cell
  | text (s : String) : Cell
  | num (n : Int) : Cell
deriving DecidableEq

/-- The uploaded spreadsheet: a header row and data rows (each data row
has one cell per header column, as in a pandas DataFrame). -/
structure RawTable where
  headers : List String
  rows : List (List Cell)
deriving DecidableEq

/-- python `str.lower()` (ASCII case folding, as in the headers this app
sees), written over the character list so the kernel can evaluate it. -/
def pyLower (s : String) : String :=
  ⟨s.data.map Char.toLower⟩

/-- python `str.strip()`: drop whitespace from both ends. -/
def pyStrip (s : String) : String :=
  ⟨((s.data.dropWhile Char.isWhitespace).reverse.dropWhile Char.isWhitespace).reverse⟩

/-- `c.lower().strip()` applied to a header name. -/
def normHeader (h : String) : String :=
  pyStrip (pyLower h)

/-- Accumulated value of `int(s)` on a digit string. -/
def digitsToNat (l : List Char) : Nat :=
  l.foldl (fun n c => n * 10 + (c.toNat - 48)) 0

/-- python `int(str)`: optional surrounding whitespace, optional sign,
then at least one digit; anything else raises (here: `none`). -/
def pyInt? (s : String) : Option Int :=
  match (pyStrip s).data with
  | [] => none
  | c :: rest =>
      if c = '-' then
        if !rest.isEmpty && rest.all Char.isDigit
        then some (-(digitsToNat rest : Int)) else none
      else if c = '+' then
        if !rest.isEmpty && rest.all Char.isDigit
        then some ((digitsToNat rest : Int)) else none
      else
        if (c :: rest).all Char.isDigit
        then some ((digitsToNat (c :: rest) : Int)) else none

/-- `normalize_cols` applied as a lookup: the column index whose
lower-cased, stripped header equals `key` (the last such column wins,
as in the python dict comprehension). -/
def colIdx (headers : List String) (key : String) : Option Nat :=
  headers.enum.foldl (fun acc p => if normHeader p.2 = key then some p.1 else acc) none

/-- The lower-cased, stripped header names (the keys of `cols_map`). -/
def lowerCols (headers : List String) : List String :=
  headers.map normHeader

/-- Fetch the cell of a row at an optional column index. -/
def getCell (cells : List Cell) (ix : Option Nat) : Cell :=
  match ix with
  | some i => cells.getD i Cell.blank
  | none => Cell.blank

/-- `int(row[cols_map.id]) if pd.notna(...) else None`, with the
`try/except` fallback to `None` on a parse failure. -/
def parseId (c : Cell) : Option Int :=
  match c with
  | Cell.blank => none
  | Cell.num n => some n
  | Cell.text s => pyInt? s

/-- `str(row[col]).strip() if pd.notna(row[col]) else None`. -/
def parseText (c : Cell) : Option String :=
  match c with
  | Cell.blank => none
  | Cell.num n => some (toString n)
  | Cell.text s => some (pyStrip s)

/-- `int(row[cols_map.quantity]) if pd.notna(...) else 0`; `none`
models the uncaught `ValueError` from an unparseable cell. -/
def parseQty (c : Cell) : Option Int :=
  match c with
  | Cell.blank => some 0
  | Cell.num n => some n
  | Cell.text s => pyInt? s

/-- Errors raised by `read_excel_to_df`: the missing-required-columns
`ValueError` (whose message lists the required columns and the columns
found), or an unparseable quantity cell. -/
inductive FmtError where
  | missingColumns (required : List String) (found : List String) : FmtError
  | badQty : FmtError
deriving DecidableEq

deriving instance DecidableEq for Except

/-- The per-row body of the loop in `read_excel_to_df`. -/
def parseRow (headers : List String) (cells : List Cell) : Option Row :=
  match parseQty (getCell cells (colIdx headers "quantity")) with
  | none => none
  | some q =>
      some { id := parseId (getCell cells (colIdx headers "id")),
             tyre_size := parseText (getCell cells (colIdx headers "tyre size")),
             company := if (lowerCols headers).contains "company"
               then parseText (getCell cells (colIdx headers "company")) else none,
             series := if (lowerCols headers).contains "series"
               then parseText (getCell cells (colIdx headers "series")) else none,
             qty := q }

/-- The row loop of `read_excel_to_df`; an exception aborts the whole
call, so no partial row list escapes. -/
def parseRows (headers : List String) : List (List Cell) → Except FmtError (List Row)
  | [] => Except.ok []
  | cells :: rest =>
      match parseRow headers cells with
      | none => Except.error FmtError.badQty
      | some r =>
          match parseRows headers rest with
          | Except.error e => Except.error e
          | Except.ok rs => Except.ok (r :: rs)

/-- `read_excel_to_df`: check the required columns, then canonicalise
every row in order. -/
def read_excel_to_df (t : RawTable) : Except FmtError (List Row) :=
  let required := ["id", "tyre size", "quantity"]
  if required.all (fun r => (lowerCols t.headers).contains r) then
    parseRows t.headers t.rows
  else
    Except.error (FmtError.missingColumns required t.headers)

/-- The merge-mode import pipeline the UI runs: parse, then
`upsert_items_from_df`.  A parse error aborts before any write, so the
store comes back unchanged. -/
def import_merge (ts : String) (t : RawTable) (db : DB) : DB × Option FmtError :=
  match read_excel_to_df t with
  | Except.error e => (db, some e)
  | Except.ok df => (upsert_items_from_df ts df db, none)

/-- `get_items_df`: `SELECT * FROM items ORDER BY id`. -/
def get_items_df (db : DB) : List Item :=
  db.items.insertionSort (fun a b => a.id ≤ b.id)

/-- An exported item as a canonical row (the backup spreadsheet carries
columns id, tyre_size, company, series, qty, so every exported row has
its identifier present). -/
def itemToRow (it : Item) : Row :=
  { id := some it.id, tyre_size := it.tyre_size, company := it.company,
    series := it.series, qty := it.qty }

/-- `backup_db_to_excel` viewed as the row sequence it exports. -/
def export_items (db : DB) : List Row :=
  (get_items_df db).map itemToRow

/-- Follows the spec's words, for comparison with the source order:
process the canonical rows strictly in their original sequence, one
update-plus-audit step per row. -/
def specUpsertRowsInOriginalOrder (ts : String) (df : List Row) (db : DB) : DB :=
  List.foldl (upsertRow ts) db df

/-- The quantity the store currently holds under an id (0 when the id is
not present). -/
def qtyOf (db : DB) (i : Int) : Int :=
  (findById db i).elim 0 (fun it => it.qty)

/-! ### Helper lemmas about the store -/

theorem maxId_ge {it : Item} : ∀ {l : List Item}, it ∈ l → it.id ≤ maxId l := by
  intro l h
  induction l with
  | nil => cases h
  | cons x xs ih =>
      rcases List.mem_cons.1 h with h | h
      · subst h; simp [maxId]
      · have := ih h
        simp only [maxId] at this ⊢
        exact le_trans this (le_max_right _ _)

theorem lookupId_fresh (l : List Item) : lookupId l (maxId l + 1) = none := by
  apply List.find?_eq_none.2
  intro x hx
  have hle : x.id ≤ maxId l := maxId_ge hx
  simp only [beq_iff_eq]
  omega

theorem lookupId_map (l : List Item) (i : Int) (g : Item → Item)
    (hg : ∀ x, (g x).id = x.id) :
    lookupId (l.map g) i = (lookupId l i).map g := by
  unfold lookupId
  have hp : ((fun it : Item => it.id == i) ∘ g) = (fun it : Item => it.id == i) := by
    funext x
    simp [Function.comp, hg]
  rw [List.find?_map, hp]

theorem lookupId_updateWhereId (l : List Item) (i : Int) (f : Item → Item)
    (hf : ∀ x, (f x).id = x.id) :
    lookupId (updateWhereId l i f) i = (lookupId l i).map f := by
  unfold updateWhereId
  rw [lookupId_map]
  · cases hfind : lookupId l i with
    | none => rfl
    | some y =>
        have hy : y.id = i := by simpa using List.find?_some hfind
        simp [hy]
  · intro x
    by_cases hx : x.id = i
    · simp [hx, hf]
    · simp [hx]

theorem lookupId_append_fresh (l : List Item) (x : Item)
    (h : lookupId l x.id = none) : lookupId (l ++ [x]) x.id = some x := by
  unfold lookupId at h ⊢
  rw [List.find?_append, h]
  simp [List.find?]

theorem lookupId_mem_nodup : ∀ {l : List Item}, (l.map Item.id).Nodup →
    ∀ {it : Item}, it ∈ l → lookupId l it.id = some it := by
  intro l
  induction l with
  | nil => intro _ it h; cases h
  | cons x xs ih =>
      intro hnd it h
      unfold lookupId
      by_cases hx : x.id = it.id
      · have hxit : x = it :=
          List.inj_on_of_nodup_map hnd (List.mem_cons_self x xs) h hx
        rw [List.find?_cons_of_pos]
        · rw [hxit]
        · simp [hx]
      · have hit : it ∈ xs := by
          rcases List.mem_cons.1 h with h | h
          · exact absurd (congrArg Item.id h.symm) hx
          · exact h
        have hnd2 : (xs.map Item.id).Nodup := (List.nodup_cons.1 hnd).2
        rw [List.find?_cons_of_neg]
        · exact ih hnd2 hit
        · simp [hx]

theorem eq_of_mem_nodup_id {l : List Item} (hnd : (l.map Item.id).Nodup)
    {a b : Item} (ha : a ∈ l) (hb : b ∈ l) (h : a.id = b.id) : a = b :=
  List.inj_on_of_nodup_map hnd ha hb h

/-- Characterisation of the signature WHERE clause: it matches exactly
when the stored size equals a non-NULL requested size and company and
series agree as options (NULL matching only NULL). -/
theorem sigMatches_iff (a b c : Option String) (it : Item) :
    sigMatches a b c it = true ↔
      (it.tyre_size = a ∧ a ≠ none ∧ it.company = b ∧ it.series = c) := by
  unfold sigMatches sqlEq nullEq
  cases it.tyre_size <;> cases a <;> cases it.company <;> cases b <;>
    cases it.series <;> cases c <;> simp [and_assoc]

/-- A row whose size is absent can never signature-match (SQL
`tyre_size = NULL` is never true). -/
theorem findSig_size_none (db : DB) (b c : Option String) :
    findSig db none b c = none := by
  apply List.find?_eq_none.2
  intro x hx
  intro hmatch
  rcases (sigMatches_iff none b c x).1 hmatch with ⟨_, habs, _⟩
  exact habs rfl

/-! ### Reduction lemmas for the four import branches -/

theorem upsertRow_id_found (ts : String) (db : DB) (r : Row) (i : Int) (it : Item)
    (hid : r.id = some i) (hfound : findById db i = some it) :
    upsertRow ts db r =
      { items := updateWhereId db.items i (fun x => { x with
          tyre_size := r.tyre_size, company := r.company, series := r.series,
          qty := it.qty + r.qty, last_updated := ts }),
        txns := db.txns ++ [⟨i, r.tyre_size, r.company, r.series, r.qty,
          "import_upsert", ts, some "import from excel"⟩] } := by
  simp only [upsertRow, hid, upsertRowWithId, hfound]

theorem upsertRow_id_notfound (ts : String) (db : DB) (r : Row) (i : Int)
    (hid : r.id = some i) (hfound : findById db i = none) :
    upsertRow ts db r =
      { items := db.items ++ [⟨i, r.tyre_size, r.company, r.series, r.qty, ts⟩],
        txns := db.txns ++ [⟨i, r.tyre_size, r.company, r.series, r.qty,
          "import_upsert", ts, some "import from excel"⟩] } := by
  simp only [upsertRow, hid, upsertRowWithId, hfound]

theorem upsertRow_sig_found (ts : String) (db : DB) (r : Row) (it : Item)
    (hid : r.id = none)
    (hfound : findSig db r.tyre_size r.company r.series = some it) :
    upsertRow ts db r =
      { items := updateWhereId db.items it.id (fun x => { x with
          qty := it.qty + r.qty, last_updated := ts }),
        txns := db.txns ++ [⟨it.id, r.tyre_size, r.company, r.series, r.qty,
          "import_merge_signature", ts, some "imported by signature"⟩] } := by
  simp only [upsertRow, hid, upsertRowNoId, hfound]

theorem upsertRow_sig_notfound (ts : String) (db : DB) (r : Row)
    (hid : r.id = none)
    (hfound : findSig db r.tyre_size r.company r.series = none) :
    upsertRow ts db r =
      { items := db.items ++ [⟨nextId db, r.tyre_size, r.company, r.series, r.qty, ts⟩],
        txns := db.txns ++ [⟨nextId db, r.tyre_size, r.company, r.series, r.qty,
          "import_new", ts, some "new row from excel"⟩] } := by
  simp only [upsertRow, hid, upsertRowNoId, hfound]

/-! ### Claim theorems -/

/-- Claim C2, counterexample: `upsert_items_from_df` does not process the
canonical rows in their original order.  On the two-row sheet
[(no id, size A, qty 5), (id 1, size A, qty 10)] against an empty store,
the source processes the id-bearing row first, producing audit reasons
(import_upsert, import_merge_signature), while in-order processing would
produce (import_new, import_upsert). -/
theorem upsert_row_order_counterexample :
    upsert_items_from_df "t"
        [⟨none, some "A", none, none, 5⟩, ⟨some 1, some "A", none, none, 10⟩] emptyDB
      ≠ specUpsertRowsInOriginalOrder "t"
        [⟨none, some "A", none, none, 5⟩, ⟨some 1, some "A", none, none, 10⟩] emptyDB := by
  decide

/-- Claim C2 (amended): `upsert_items_from_df` processes all
identifier-present rows first, in their original relative order, and then
all identifier-absent rows, in their original relative order; within that
reordered sequence each row's update-plus-audit step is applied
sequentially, later rows seeing the effects of earlier ones. -/
theorem upsert_processes_id_rows_first (ts : String) (df : List Row) (db : DB) :
    upsert_items_from_df ts df db
      = specUpsertRowsInOriginalOrder ts
          (df.filter (fun r => r.id.isSome) ++ df.filter (fun r => r.id.isNone)) db := by
  unfold upsert_items_from_df specUpsertRowsInOriginalOrder
  rw [List.foldl_append]

/-- Claim C9: within one import, an identifier-absent row can
signature-match a record inserted earlier in the same import.  Two
identifier-absent rows with the same present size and identical
company/series, imported into an empty store, leave exactly one record
with quantity q1 + q2 and exactly two audit entries: first import_new
with delta q1, then import_merge_signature with delta q2. -/
theorem import_merges_within_one_import (ts s : String) (comp ser : Option String)
    (q1 q2 : Int) :
    upsert_items_from_df ts
        [⟨none, some s, comp, ser, q1⟩, ⟨none, some s, comp, ser, q2⟩] emptyDB
      = { items := [⟨1, some s, comp, ser, q1 + q2, ts⟩],
          txns := [⟨1, some s, comp, ser, q1, "import_new", ts,
                     some "new row from excel"⟩,
                   ⟨1, some s, comp, ser, q2, "import_merge_signature", ts,
                     some "imported by signature"⟩] } := by
  cases comp <;> cases ser <;>
    simp [upsert_items_from_df, upsertRow, upsertRowNoId, findSig, sigMatches, sqlEq,
      nullEq, nextId, maxId, updateWhereId, emptyDB, lookupId, List.find?]

/-- Claim C6: `add_stock` with an absent identifier always inserts a
fresh record under a store-assigned id (never signature-merging), so two
identical id-less calls yield two distinct records. -/
theorem add_stock_noid_always_new (ts : String) (db : DB)
    (size comp ser : Option String) (q : Int) (note : Option String) :
    (add_stock ts db none size comp ser q note).2 = nextId db
    ∧ findById db (nextId db) = none
    ∧ (add_stock ts db none size comp ser q note).1.items
        = db.items ++ [⟨nextId db, size, comp, ser, q, ts⟩]
    ∧ (add_stock ts (add_stock ts db none size comp ser q note).1
          none size comp ser q note).1.items
        = db.items ++ [⟨nextId db, size, comp, ser, q, ts⟩,
            ⟨(add_stock ts (add_stock ts db none size comp ser q note).1
                none size comp ser q note).2, size, comp, ser, q, ts⟩]
    ∧ (add_stock ts (add_stock ts db none size comp ser q note).1
          none size comp ser q note).2 ≠ nextId db := by
  refine ⟨rfl, lookupId_fresh db.items, rfl, by simp [add_stock], ?_⟩
  have hx : (⟨nextId db, size, comp, ser, q, ts⟩ : Item).id
      ≤ maxId (db.items ++ [⟨nextId db, size, comp, ser, q, ts⟩]) :=
    maxId_ge (by simp)
  have h2 : (add_stock ts (add_stock ts db none size comp ser q note).1
      none size comp ser q note).2
      = maxId (db.items ++ [⟨nextId db, size, comp, ser, q, ts⟩]) + 1 := rfl
  rw [h2]
  simp only [nextId] at hx ⊢
  omega

/-- Claim C5: removing more stock than is on hand fails with the
insufficient-stock error carrying the current and requested quantities,
and returns the store completely unchanged (no quantity update, no
timestamp update, no audit entry). -/
theorem remove_insufficient_no_write (ts : String) (db : DB) (i q : Int)
    (reason : String) (note : Option String) (it : Item)
    (hfind : findById db i = some it) (hq : q > it.qty) :
    remove_stock_by_id ts db i q reason note
      = (db, some (StockError.insufficientStock it.qty q)) := by
  simp only [remove_stock_by_id, hfind]
  rw [if_pos hq]

/-- Witness for claim C5 at a concrete store. -/
theorem remove_insufficient_no_write_witness :
    remove_stock_by_id "t" ⟨[⟨1, some "A", none, none, 3, "u"⟩], []⟩ 1 5 "sale" none
      = (⟨[⟨1, some "A", none, none, 3, "u"⟩], []⟩,
         some (StockError.insufficientStock 3 5)) :=
  remove_insufficient_no_write "t" ⟨[⟨1, some "A", none, none, 3, "u"⟩], []⟩ 1 5
    "sale" none ⟨1, some "A", none, none, 3, "u"⟩ (by decide) (by decide)

/-- Claim C3: an identifier-absent row whose signature matches an
existing record (NULL matching only NULL) adds the row quantity to that
record and refreshes its timestamp while leaving size, company and
series untouched on every record, and appends exactly one audit entry
with reason import_merge_signature and delta equal to the row quantity.
The last conjunct certifies that the match was exact: the stored
descriptive fields equal the row's, and the size was present. -/
theorem sig_merge_preserves_fields (ts : String) (db : DB) (r : Row) (it : Item)
    (hid : r.id = none)
    (hfound : findSig db r.tyre_size r.company r.series = some it) :
    (upsertRow ts db r).items
      = db.items.map (fun x =>
          if x.id = it.id then { x with qty := it.qty + r.qty, last_updated := ts }
          else x)
    ∧ (upsertRow ts db r).txns
      = db.txns ++ [⟨it.id, r.tyre_size, r.company, r.series, r.qty,
          "import_merge_signature", ts, some "imported by signature"⟩]
    ∧ it.tyre_size = r.tyre_size ∧ r.tyre_size ≠ none
    ∧ it.company = r.company ∧ it.series = r.series := by
  have hmatch := List.find?_some hfound
  rcases (sigMatches_iff r.tyre_size r.company r.series it).1 hmatch with
    ⟨h1, h2, h3, h4⟩
  refine ⟨?_, ?_, h1, h2, h3, h4⟩
  · rw [upsertRow_sig_found ts db r it hid hfound]
    rfl
  · rw [upsertRow_sig_found ts db r it hid hfound]

/-- Witness for claim C3: merging a no-id row into a store holding a
matching (size 185 65 R14, company Acme, series NULL) record. -/
theorem sig_merge_preserves_fields_witness :
    (upsertRow "t" ⟨[⟨7, some "185 65 R14", some "Acme", none, 4, "u"⟩], []⟩
        ⟨none, some "185 65 R14", some "Acme", none, 6⟩).items
      = [⟨7, some "185 65 R14", some "Acme", none, 10, "t"⟩]
    ∧ (upsertRow "t" ⟨[⟨7, some "185 65 R14", some "Acme", none, 4, "u"⟩], []⟩
        ⟨none, some "185 65 R14", some "Acme", none, 6⟩).txns
      = [⟨7, some "185 65 R14", some "Acme", none, 6, "import_merge_signature", "t",
          some "imported by signature"⟩] := by
  have h := sig_merge_preserves_fields "t"
    ⟨[⟨7, some "185 65 R14", some "Acme", none, 4, "u"⟩], []⟩
    ⟨none, some "185 65 R14", some "Acme", none, 6⟩
    ⟨7, some "185 65 R14", some "Acme", none, 4, "u"⟩ rfl (by decide)
  refine ⟨?_, ?_⟩
  · rw [h.1]; decide
  · rw [h.2.1]; decide

/-- Claim C4: an identifier-present row matching an existing record
fully overwrites size, company and series with the row's values (absent
row fields becoming NULL), adds the row quantity, refreshes the
timestamp, and appends exactly one audit entry with delta equal to the
row quantity and reason import_upsert. -/
theorem id_upsert_overwrites_fields (ts : String) (db : DB) (r : Row) (i : Int)
    (it : Item) (hid : r.id = some i) (hfound : findById db i = some it) :
    (upsertRow ts db r).items
      = db.items.map (fun x =>
          if x.id = i then { x with
            tyre_size := r.tyre_size, company := r.company, series := r.series,
            qty := it.qty + r.qty, last_updated := ts }
          else x)
    ∧ (upsertRow ts db r).txns
      = db.txns ++ [⟨i, r.tyre_size, r.company, r.series, r.qty,
          "import_upsert", ts, some "import from excel"⟩] := by
  rw [upsertRow_id_found ts db r i it hid hfound]
  exact ⟨rfl, rfl⟩

/-- Witness for claim C4: a row with id 7 that omits company and series
overwrites those fields to NULL on the existing record. -/
theorem id_upsert_overwrites_fields_witness :
    (upsertRow "t" ⟨[⟨7, some "A", some "Acme", some "S", 4, "u"⟩], []⟩
        ⟨some 7, some "B", none, none, 6⟩).items
      = [⟨7, some "B", none, none, 10, "t"⟩]
    ∧ (upsertRow "t" ⟨[⟨7, some "A", some "Acme", some "S", 4, "u"⟩], []⟩
        ⟨some 7, some "B", none, none, 6⟩).txns
      = [⟨7, some "B", none, none, 6, "import_upsert", "t",
          some "import from excel"⟩] := by
  have h := id_upsert_overwrites_fields "t"
    ⟨[⟨7, some "A", some "Acme", some "S", 4, "u"⟩], []⟩
    ⟨some 7, some "B", none, none, 6⟩ 7
    ⟨7, some "A", some "Acme", some "S", 4, "u"⟩ rfl (by decide)
  refine ⟨?_, ?_⟩
  · rw [h.1]; decide
  · rw [h.2]; decide

/-- Claim C7: when some required column (id, tyre size, quantity, matched
case-insensitively and whitespace-trimmed) is missing, `read_excel_to_df`
fails with the missing-columns error, whose payload carries the required
column names (hence the names of the missing ones) and the columns found,
and the merge import returns the store unchanged. -/
theorem missing_columns_abort (ts : String) (t : RawTable) (db : DB)
    (hmiss : ∃ c ∈ ["id", "tyre size", "quantity"],
      ¬ (lowerCols t.headers).contains c) :
    read_excel_to_df t
      = Except.error (FmtError.missingColumns ["id", "tyre size", "quantity"] t.headers)
    ∧ import_merge ts t db
      = (db, some (FmtError.missingColumns ["id", "tyre size", "quantity"] t.headers)) := by
  have hall : ¬ ((["id", "tyre size", "quantity"].all
      fun c => (lowerCols t.headers).contains c) = true) := by
    rcases hmiss with ⟨c, hc, hnot⟩
    intro hall
    exact hnot (List.all_eq_true.1 hall c hc)
  have h1 : read_excel_to_df t
      = Except.error (FmtError.missingColumns ["id", "tyre size", "quantity"] t.headers) := by
    unfold read_excel_to_df
    rw [if_neg hall]
  refine ⟨h1, ?_⟩
  unfold import_merge
  rw [h1]

/-- Witness for claim C7: a sheet with columns ID and Qty only. -/
theorem missing_columns_abort_witness :
    read_excel_to_df ⟨["ID", "Qty"], [[Cell.num 1, Cell.num 7]]⟩
      = Except.error (FmtError.missingColumns ["id", "tyre size", "quantity"] ["ID", "Qty"])
    ∧ import_merge "t" ⟨["ID", "Qty"], [[Cell.num 1, Cell.num 7]]⟩ emptyDB
      = (emptyDB,
         some (FmtError.missingColumns ["id", "tyre size", "quantity"] ["ID", "Qty"])) :=
  missing_columns_abort "t" ⟨["ID", "Qty"], [[Cell.num 1, Cell.num 7]]⟩ emptyDB
    (by decide)

theorem parseRows_ok_spec (headers : List String) :
    ∀ (cs : List (List Cell)) (rs : List Row), parseRows headers cs = Except.ok rs →
      rs.length = cs.length
      ∧ ∀ k (h1 : k < cs.length) (h2 : k < rs.length),
          parseRow headers (cs.get ⟨k, h1⟩) = some (rs.get ⟨k, h2⟩) := by
  intro cs
  induction cs with
  | nil =>
      intro rs h
      simp only [parseRows] at h
      cases h
      exact ⟨rfl, by intro k h1 h2; cases h1⟩
  | cons c rest ih =>
      intro rs h
      simp only [parseRows] at h
      cases hp : parseRow headers c with
      | none => rw [hp] at h; cases h
      | some r =>
          rw [hp] at h
          cases hrest : parseRows headers rest with
          | error e => rw [hrest] at h; cases h
          | ok rs2 =>
              rw [hrest] at h
              cases h
              rcases ih rs2 hrest with ⟨hlen, hget⟩
              refine ⟨by simp [hlen], ?_⟩
              intro k h1 h2
              cases k with
              | zero => simpa using hp
              | succ n =>
                  simpa using hget n (by simpa using h1) (by simpa using h2)

theorem parseRow_blank_size (headers : List String) (cells : List Cell) (r : Row)
    (h : parseRow headers cells = some r)
    (hb : getCell cells (colIdx headers "tyre size") = Cell.blank) :
    r.tyre_size = none := by
  unfold parseRow at h
  cases hq : parseQty (getCell cells (colIdx headers "quantity")) with
  | none => rw [hq] at h; cases h
  | some q =>
      rw [hq] at h
      cases h
      simp [hb, parseText]

/-- Claim C10: nothing validates that size is present.  A successful
parse keeps every row (none dropped), maps a blank size cell to an
absent size, and the import then inserts (identifier-absent path: the
signature can never match) or updates (identifier path) a record whose
size field is NULL, although the data model calls size required. -/
theorem blank_size_accepted (t : RawTable) (rs : List Row)
    (h : read_excel_to_df t = Except.ok rs) :
    rs.length = t.rows.length
    ∧ (∀ k (h1 : k < t.rows.length) (h2 : k < rs.length),
        getCell (t.rows.get ⟨k, h1⟩) (colIdx t.headers "tyre size") = Cell.blank →
          (rs.get ⟨k, h2⟩).tyre_size = none)
    ∧ (∀ ts db (r : Row), r.id = none → r.tyre_size = none →
        (upsertRow ts db r).items
          = db.items ++ [⟨nextId db, none, r.company, r.series, r.qty, ts⟩])
    ∧ (∀ ts db (r : Row) i it, r.id = some i → r.tyre_size = none →
        findById db i = some it →
        (upsertRow ts db r).items
          = db.items.map (fun x =>
              if x.id = i then { x with
                tyre_size := none, company := r.company, series := r.series,
                qty := it.qty + r.qty, last_updated := ts }
              else x)) := by
  have hp : parseRows t.headers t.rows = Except.ok rs := by
    unfold read_excel_to_df at h
    by_cases hc : (["id", "tyre size", "quantity"].all
        fun c => (lowerCols t.headers).contains c) = true
    · rwa [if_pos hc] at h
    · rw [if_neg hc] at h; cases h
  rcases parseRows_ok_spec t.headers t.rows rs hp with ⟨hlen, hget⟩
  refine ⟨hlen, ?_, ?_, ?_⟩
  · intro k h1 h2 hb
    exact parseRow_blank_size t.headers (t.rows.get ⟨k, h1⟩) (rs.get ⟨k, h2⟩)
      (hget k h1 h2) hb
  · intro ts db r hid hsize
    have hfound : findSig db r.tyre_size r.company r.series = none := by
      rw [hsize]; exact findSig_size_none db r.company r.series
    rw [upsertRow_sig_notfound ts db r hid hfound, hsize]
  · intro ts db r i it hid hsize hfound
    have := upsertRow_id_found ts db r i it hid hfound
    rw [this, hsize]
    rfl

/-- Witness for claim C10: a one-row sheet whose size cell is blank
parses to a size-less row, and importing that row inserts a size-less
record. -/
theorem blank_size_accepted_witness :
    read_excel_to_df ⟨["id", "tyre size", "quantity"],
        [[Cell.blank, Cell.blank, Cell.num 2]]⟩
      = Except.ok [⟨none, none, none, none, 2⟩]
    ∧ (upsertRow "t" emptyDB ⟨none, none, none, none, 2⟩).items
      = [⟨1, none, none, none, 2, "t"⟩] := by
  have h := blank_size_accepted
    ⟨["id", "tyre size", "quantity"], [[Cell.blank, Cell.blank, Cell.num 2]]⟩
    [⟨none, none, none, none, 2⟩] (by decide)
  refine ⟨by decide, ?_⟩
  rw [h.2.2.1 "t" emptyDB ⟨none, none, none, none, 2⟩ rfl rfl]
  rfl

/-! ### Quantity-tracking lemmas and reduction lemmas for C1 -/

theorem qtyOf_some (db : DB) (i : Int) (it : Item) (h : findById db i = some it) :
    qtyOf db i = it.qty := by
  unfold qtyOf
  rw [h]
  rfl

theorem qtyOf_none (db : DB) (i : Int) (h : findById db i = none) :
    qtyOf db i = 0 := by
  unfold qtyOf
  rw [h]
  rfl

theorem qtyOf_update (l : List Item) (txs : List Txn) (i : Int) (it : Item)
    (f : Item → Item) (hfound : lookupId l i = some it)
    (hf : ∀ x, (f x).id = x.id) :
    qtyOf ⟨updateWhereId l i f, txs⟩ i = (f it).qty := by
  unfold qtyOf findById
  show ((lookupId (updateWhereId l i f) i).elim 0 fun x => x.qty) = (f it).qty
  rw [lookupId_updateWhereId l i f hf, hfound]
  rfl

theorem qtyOf_append_fresh (l : List Item) (txs : List Txn) (x : Item)
    (hfresh : lookupId l x.id = none) :
    qtyOf ⟨l ++ [x], txs⟩ x.id = x.qty := by
  unfold qtyOf findById
  show ((lookupId (l ++ [x]) x.id).elim 0 fun y => y.qty) = x.qty
  rw [lookupId_append_fresh l x hfresh]
  rfl

theorem add_stock_id_found (ts : String) (db : DB) (i : Int) (it : Item)
    (size comp ser : Option String) (q : Int) (note : Option String)
    (hfound : findById db i = some it) :
    add_stock ts db (some i) size comp ser q note
      = ({ items := updateWhereId db.items i (fun x => { x with
             qty := it.qty + q, tyre_size := size, company := comp, series := ser,
             last_updated := ts }),
           txns := db.txns ++ [⟨i, size, comp, ser, q, "stock_in", ts, note⟩] }, i) := by
  simp only [add_stock, hfound]

theorem add_stock_id_notfound (ts : String) (db : DB) (i : Int)
    (size comp ser : Option String) (q : Int) (note : Option String)
    (hfound : findById db i = none) :
    add_stock ts db (some i) size comp ser q note
      = ({ items := db.items ++ [⟨i, size, comp, ser, q, ts⟩],
           txns := db.txns ++ [⟨i, size, comp, ser, q, "stock_in", ts, note⟩] }, i) := by
  simp only [add_stock, hfound]

theorem remove_by_id_ok (ts : String) (db : DB) (i q : Int) (reason : String)
    (note : Option String) (it : Item) (hfound : findById db i = some it)
    (hq : ¬ q > it.qty) :
    remove_stock_by_id ts db i q reason note
      = ({ items := updateWhereId db.items i (fun x => { x with
             qty := it.qty - q, last_updated := ts }),
           txns := db.txns ++ [⟨i, it.tyre_size, it.company, it.series, -q, reason, ts,
             note⟩] }, none) := by
  simp only [remove_stock_by_id, hfound]
  rw [if_neg hq]

theorem remove_by_sig_ok (ts : String) (db : DB) (size comp ser : Option String)
    (q : Int) (reason : String) (note : Option String) (it : Item)
    (hfound : find_item_by_signature db size comp ser = some it)
    (hq : ¬ q > it.qty) :
    remove_stock_by_signature ts db size comp ser q reason note
      = ({ items := updateWhereId db.items it.id (fun x => { x with
             qty := it.qty - q, last_updated := ts }),
           txns := db.txns ++ [⟨it.id, it.tyre_size, it.company, it.series, -q, reason,
             ts, note⟩] }, none) := by
  simp only [remove_stock_by_signature, hfound]
  rw [if_neg hq]

/-- Claim C1: every successful quantity mutation — an import row
(either branch of `upsert_items_from_df`, as performed by `upsertRow`),
`add_stock`, `remove_stock_by_id` or `remove_stock_by_signature` —
appends exactly one audit entry in the same state transition, and that
entry's delta equals the quantity change applied to the touched record
(the quantity stored under the entry's item id after minus before,
a missing id counting as 0). -/
theorem every_mutation_audited (ts : String) (db : DB)
    (hnd : (db.items.map Item.id).Nodup) :
    (∀ r : Row, ∃ e : Txn, (upsertRow ts db r).txns = db.txns ++ [e]
        ∧ e.change = r.qty
        ∧ e.change = qtyOf (upsertRow ts db r) e.item_id - qtyOf db e.item_id)
    ∧ (∀ (iid : Option Int) (size comp ser : Option String) (q : Int)
          (note : Option String),
        ∃ e : Txn, (add_stock ts db iid size comp ser q note).1.txns = db.txns ++ [e]
        ∧ e.change = q
        ∧ e.change = qtyOf (add_stock ts db iid size comp ser q note).1 e.item_id
            - qtyOf db e.item_id)
    ∧ (∀ (i q : Int) (reason : String) (note : Option String),
        (remove_stock_by_id ts db i q reason note).2 = none →
        ∃ e : Txn, (remove_stock_by_id ts db i q reason note).1.txns = db.txns ++ [e]
        ∧ e.change = -q
        ∧ e.change = qtyOf (remove_stock_by_id ts db i q reason note).1 e.item_id
            - qtyOf db e.item_id)
    ∧ (∀ (size comp ser : Option String) (q : Int) (reason : String)
          (note : Option String),
        (remove_stock_by_signature ts db size comp ser q reason note).2 = none →
        ∃ e : Txn, (remove_stock_by_signature ts db size comp ser q reason note).1.txns
            = db.txns ++ [e]
        ∧ e.change = -q
        ∧ e.change
            = qtyOf (remove_stock_by_signature ts db size comp ser q reason note).1
                e.item_id - qtyOf db e.item_id) := by
  refine ⟨?_, ?_, ?_, ?_⟩
  · -- import rows
    intro r
    cases hid : r.id with
    | some i =>
        cases hfound : findById db i with
        | some it =>
            refine ⟨⟨i, r.tyre_size, r.company, r.series, r.qty, "import_upsert", ts,
              some "import from excel"⟩, ?_, rfl, ?_⟩
            · rw [upsertRow_id_found ts db r i it hid hfound]
            · rw [upsertRow_id_found ts db r i it hid hfound]
              have h1 : qtyOf db i = it.qty := qtyOf_some db i it hfound
              have h2 := qtyOf_update db.items
                (db.txns ++ [⟨i, r.tyre_size, r.company, r.series, r.qty,
                  "import_upsert", ts, some "import from excel"⟩]) i it
                (fun x => { x with
                  tyre_size := r.tyre_size, company := r.company,
                  series := r.series, qty := it.qty + r.qty, last_updated := ts })
                hfound (fun x => rfl)
              simp only [h2, h1]
              ring
        | none =>
            refine ⟨⟨i, r.tyre_size, r.company, r.series, r.qty, "import_upsert", ts,
              some "import from excel"⟩, ?_, rfl, ?_⟩
            · rw [upsertRow_id_notfound ts db r i hid hfound]
            · rw [upsertRow_id_notfound ts db r i hid hfound]
              have h1 : qtyOf db i = 0 := qtyOf_none db i hfound
              have h2 := qtyOf_append_fresh db.items
                (db.txns ++ [⟨i, r.tyre_size, r.company, r.series, r.qty,
                  "import_upsert", ts, some "import from excel"⟩])
                ⟨i, r.tyre_size, r.company, r.series, r.qty, ts⟩ hfound
              simp only [h2, h1]
              ring
    | none =>
        cases hfound : findSig db r.tyre_size r.company r.series with
        | some it =>
            have hmem : it ∈ db.items := by
              unfold findSig at hfound
              exact List.mem_of_find?_eq_some hfound
            have hlook : lookupId db.items it.id = some it := lookupId_mem_nodup hnd hmem
            refine ⟨⟨it.id, r.tyre_size, r.company, r.series, r.qty,
              "import_merge_signature", ts, some "imported by signature"⟩, ?_, rfl, ?_⟩
            · rw [upsertRow_sig_found ts db r it hid hfound]
            · rw [upsertRow_sig_found ts db r it hid hfound]
              have h1 : qtyOf db it.id = it.qty := qtyOf_some db it.id it hlook
              have h2 := qtyOf_update db.items
                (db.txns ++ [⟨it.id, r.tyre_size, r.company, r.series, r.qty,
                  "import_merge_signature", ts, some "imported by signature"⟩]) it.id it
                (fun x => { x with qty := it.qty + r.qty, last_updated := ts })
                hlook (fun x => rfl)
              simp only [h2, h1]
              ring
        | none =>
            refine ⟨⟨nextId db, r.tyre_size, r.company, r.series, r.qty, "import_new",
              ts, some "new row from excel"⟩, ?_, rfl, ?_⟩
            · rw [upsertRow_sig_notfound ts db r hid hfound]
            · rw [upsertRow_sig_notfound ts db r hid hfound]
              have h1 : qtyOf db (nextId db) = 0 :=
                qtyOf_none db (nextId db) (lookupId_fresh db.items)
              have h2 := qtyOf_append_fresh db.items
                (db.txns ++ [⟨nextId db, r.tyre_size, r.company, r.series, r.qty,
                  "import_new", ts, some "new row from excel"⟩])
                ⟨nextId db, r.tyre_size, r.company, r.series, r.qty, ts⟩
                (lookupId_fresh db.items)
              simp only [h2, h1]
              ring
  · -- add_stock
    intro iid size comp ser q note
    cases iid with
    | some i =>
        cases hfound : findById db i with
        | some it =>
            refine ⟨⟨i, size, comp, ser, q, "stock_in", ts, note⟩, ?_, rfl, ?_⟩
            · rw [add_stock_id_found ts db i it size comp ser q note hfound]
            · rw [add_stock_id_found ts db i it size comp ser q note hfound]
              have h1 : qtyOf db i = it.qty := qtyOf_some db i it hfound
              have h2 := qtyOf_update db.items
                (db.txns ++ [⟨i, size, comp, ser, q, "stock_in", ts, note⟩]) i it
                (fun x => { x with
                  qty := it.qty + q, tyre_size := size,
                  company := comp, series := ser, last_updated := ts })
                hfound (fun x => rfl)
              simp only [h2, h1]
              ring
        | none =>
            refine ⟨⟨i, size, comp, ser, q, "stock_in", ts, note⟩, ?_, rfl, ?_⟩
            · rw [add_stock_id_notfound ts db i size comp ser q note hfound]
            · rw [add_stock_id_notfound ts db i size comp ser q note hfound]
              have h1 : qtyOf db i = 0 := qtyOf_none db i hfound
              have h2 := qtyOf_append_fresh db.items
                (db.txns ++ [⟨i, size, comp, ser, q, "stock_in", ts, note⟩])
                ⟨i, size, comp, ser, q, ts⟩ hfound
              simp only [h2, h1]
              ring
    | none =>
        refine ⟨⟨nextId db, size, comp, ser, q, "stock_in", ts, note⟩, rfl, rfl, ?_⟩
        have h1 : qtyOf db (nextId db) = 0 :=
          qtyOf_none db (nextId db) (lookupId_fresh db.items)
        have h2 := qtyOf_append_fresh db.items
          (db.txns ++ [⟨nextId db, size, comp, ser, q, "stock_in", ts, note⟩])
          ⟨nextId db, size, comp, ser, q, ts⟩ (lookupId_fresh db.items)
        have h3 : (add_stock ts db none size comp ser q note).1
            = ⟨db.items ++ [⟨nextId db, size, comp, ser, q, ts⟩],
               db.txns ++ [⟨nextId db, size, comp, ser, q, "stock_in", ts, note⟩]⟩ := rfl
        rw [h3]
        simp only [h2, h1]
        ring
  · -- remove_stock_by_id
    intro i q reason note hok
    cases hfound : findById db i with
    | none =>
        rw [remove_stock_by_id] at hok
        simp only [hfound] at hok
        cases hok
    | some it =>
        by_cases hq : q > it.qty
        · rw [remove_stock_by_id] at hok
          simp only [hfound, if_pos hq] at hok
          cases hok
        · refine ⟨⟨i, it.tyre_size, it.company, it.series, -q, reason, ts, note⟩,
            ?_, rfl, ?_⟩
          · rw [remove_by_id_ok ts db i q reason note it hfound hq]
          · rw [remove_by_id_ok ts db i q reason note it hfound hq]
            have h1 : qtyOf db i = it.qty := qtyOf_some db i it hfound
            have h2 := qtyOf_update db.items
              (db.txns ++ [⟨i, it.tyre_size, it.company, it.series, -q, reason, ts,
                note⟩]) i it
              (fun x => { x with qty := it.qty - q, last_updated := ts })
              hfound (fun x => rfl)
            simp only [h2, h1]
            ring
  · -- remove_stock_by_signature
    intro size comp ser q reason note hok
    cases hfound : find_item_by_signature db size comp ser with
    | none =>
        rw [remove_stock_by_signature] at hok
        simp only [hfound] at hok
        cases hok
    | some it =>
        have hmem : it ∈ db.items := by
          unfold find_item_by_signature findSig at hfound
          exact List.mem_of_find?_eq_some hfound
        have hlook : lookupId db.items it.id = some it := lookupId_mem_nodup hnd hmem
        by_cases hq : q > it.qty
        · rw [remove_stock_by_signature] at hok
          simp only [hfound, if_pos hq] at hok
          cases hok
        · refine ⟨⟨it.id, it.tyre_size, it.company, it.series, -q, reason, ts, note⟩,
            ?_, rfl, ?_⟩
          · rw [remove_by_sig_ok ts db size comp ser q reason note it hfound hq]
          · rw [remove_by_sig_ok ts db size comp ser q reason note it hfound hq]
            have h1 : qtyOf db it.id = it.qty := qtyOf_some db it.id it hlook
            have h2 := qtyOf_update db.items
              (db.txns ++ [⟨it.id, it.tyre_size, it.company, it.series, -q, reason,
                ts, note⟩]) it.id it
              (fun x => { x with qty := it.qty - q, last_updated := ts })
              hlook (fun x => rfl)
            simp only [h2, h1]
            ring

/-- Witness for claim C1 at a concrete one-record store, exercising
the import branch and the successful removal branch. -/
theorem every_mutation_audited_witness :
    (∃ e : Txn,
      (upsertRow "t" ⟨[⟨1, some "A", none, none, 3, "u"⟩], []⟩
          ⟨none, some "A", none, none, 2⟩).txns = [] ++ [e]
      ∧ e.change = 2
      ∧ e.change = qtyOf (upsertRow "t" ⟨[⟨1, some "A", none, none, 3, "u"⟩], []⟩
          ⟨none, some "A", none, none, 2⟩) e.item_id
          - qtyOf ⟨[⟨1, some "A", none, none, 3, "u"⟩], []⟩ e.item_id)
    ∧ (∃ e : Txn,
      (remove_stock_by_id "t" ⟨[⟨1, some "A", none, none, 3, "u"⟩], []⟩
          1 2 "sale" none).1.txns = [] ++ [e]
      ∧ e.change = -2
      ∧ e.change = qtyOf (remove_stock_by_id "t" ⟨[⟨1, some "A", none, none, 3, "u"⟩],
          []⟩ 1 2 "sale" none).1 e.item_id
          - qtyOf ⟨[⟨1, some "A", none, none, 3, "u"⟩], []⟩ e.item_id) := by
  have h := every_mutation_audited "t" ⟨[⟨1, some "A", none, none, 3, "u"⟩], []⟩
    (by decide)
  exact ⟨h.1 ⟨none, some "A", none, none, 2⟩,
         h.2.2.1 1 2 "sale" none (by decide)⟩

/-! ### Round-trip (export then merge re-import) -/

/-- The effect one re-imported row has on its own record: quantity
doubled, timestamp refreshed, all other fields kept. -/
def dblQ (ts : String) (it : Item) : Item :=
  { it with qty := it.qty + it.qty, last_updated := ts }

theorem reimport_fold_aux (ts : String) (orig : List Item)
    (hnd : (orig.map Item.id).Nodup) :
    ∀ (todo : List Item) (pids : List Int) (txs : List Txn),
      (∀ it ∈ todo, it ∈ orig) →
      ((todo.map Item.id).Nodup) →
      (∀ it ∈ todo, ¬ it.id ∈ pids) →
      (List.foldl (upsertRow ts)
          ⟨orig.map (fun it => if it.id ∈ pids then dblQ ts it else it), txs⟩
          (todo.map itemToRow)).items
        = orig.map (fun it =>
            if it.id ∈ pids ∨ it.id ∈ todo.map Item.id then dblQ ts it else it) := by
  intro todo
  induction todo with
  | nil =>
      intro pids txs hsub hnd2 hdis
      simp only [List.map_nil, List.foldl_nil, List.not_mem_nil, or_false]
  | cons j rest ih =>
      intro pids txs hsub hnd2 hdis
      have hjorig : j ∈ orig := hsub j (List.mem_cons_self j rest)
      have hjpids : ¬ j.id ∈ pids := hdis j (List.mem_cons_self j rest)
      have hndc : (∀ x ∈ rest, ¬ x.id = j.id) ∧ (rest.map Item.id).Nodup := by
        simpa using hnd2
      have hjrest2 : ∀ x ∈ rest, ¬ x.id = j.id := hndc.1
      have hndrest : (rest.map Item.id).Nodup := hndc.2
      have hg : ∀ x : Item,
          ((fun it => if it.id ∈ pids then dblQ ts it else it) x).id = x.id := by
        intro x
        by_cases hx : x.id ∈ pids <;> simp [hx, dblQ]
      have hfound : findById
          ⟨orig.map (fun it => if it.id ∈ pids then dblQ ts it else it), txs⟩ j.id
          = some j := by
        unfold findById
        show lookupId (orig.map (fun it => if it.id ∈ pids then dblQ ts it else it))
          j.id = some j
        rw [lookupId_map orig j.id _ hg, lookupId_mem_nodup hnd hjorig]
        simp [hjpids]
      have hstep := upsertRow_id_found ts
        ⟨orig.map (fun it => if it.id ∈ pids then dblQ ts it else it), txs⟩
        (itemToRow j) j.id j rfl hfound
      have hitems : updateWhereId
          (orig.map (fun it => if it.id ∈ pids then dblQ ts it else it)) j.id
          (fun x => { x with
            tyre_size := (itemToRow j).tyre_size, company := (itemToRow j).company,
            series := (itemToRow j).series, qty := j.qty + (itemToRow j).qty,
            last_updated := ts })
          = orig.map (fun it => if it.id ∈ (j.id :: pids) then dblQ ts it else it) := by
        unfold updateWhereId
        rw [List.map_map]
        apply List.map_congr_left
        intro x hx
        by_cases hxj : x.id = j.id
        · have hxeq : x = j := eq_of_mem_nodup_id hnd hx hjorig hxj
          subst hxeq
          simp [Function.comp, hjpids, itemToRow, dblQ]
        · by_cases hxp : x.id ∈ pids
          · simp [Function.comp, hxp, hxj, dblQ, List.mem_cons]
          · simp [Function.comp, hxp, hxj, List.mem_cons]
      simp only [List.map_cons, List.foldl_cons]
      rw [hstep]
      simp only [hitems]
      have hsub2 : ∀ it ∈ rest, it ∈ orig := fun it hit =>
        hsub it (List.mem_cons_of_mem j hit)
      have hdis2 : ∀ it ∈ rest, ¬ it.id ∈ (j.id :: pids) := by
        intro it hit
        rw [List.mem_cons]
        rintro (h | h)
        · exact hjrest2 it hit h
        · exact hdis it (List.mem_cons_of_mem j hit) h
      rw [ih (j.id :: pids) _ hsub2 hndrest hdis2]
      apply List.map_congr_left
      intro it hit
      apply if_congr _ rfl rfl
      simp only [List.mem_cons, List.map_cons]
      tauto

/-- Claim C8: exporting the items table and immediately re-importing the
export through the merge import doubles every record's quantity and
leaves size, company and series untouched (every exported row carries
its identifier, so only the identifier path runs, overwriting each
field with its current value). -/
theorem export_reimport_doubles (ts : String) (db : DB)
    (hnd : (db.items.map Item.id).Nodup) :
    (∀ r ∈ export_items db, r.id.isSome = true)
    ∧ (upsert_items_from_df ts (export_items db) db).items
        = db.items.map (fun it =>
            { it with qty := 2 * it.qty, last_updated := ts }) := by
  have hperm : (get_items_df db).Perm db.items := List.perm_insertionSort _ _
  have hall : ∀ r ∈ export_items db, r.id.isSome = true := by
    intro r hr
    rcases List.mem_map.1 hr with ⟨it, hmem, hr2⟩
    rw [← hr2]
    rfl
  refine ⟨hall, ?_⟩
  have hfil1 : (export_items db).filter (fun r => r.id.isSome) = export_items db :=
    List.filter_eq_self.2 hall
  have hfil2 : (export_items db).filter (fun r => r.id.isNone) = [] := by
    apply List.filter_eq_nil_iff.2
    intro r hr
    have := hall r hr
    simp only [Option.isNone]
    cases hid : r.id with
    | none => rw [hid] at this; cases this
    | some i => simp
  unfold upsert_items_from_df
  rw [hfil1, hfil2]
  simp only [List.foldl_nil]
  have hndx : ((get_items_df db).map Item.id).Nodup :=
    ((hperm.map Item.id).nodup_iff).2 hnd
  have hmain := reimport_fold_aux ts db.items hnd (get_items_df db) [] db.txns
    (fun it hit => hperm.mem_iff.1 hit) hndx (by intro it hit; simp)
  have hinit : (⟨db.items.map
        (fun it => if it.id ∈ ([] : List Int) then dblQ ts it else it), db.txns⟩ : DB)
      = db := by
    have : db.items.map
        (fun it => if it.id ∈ ([] : List Int) then dblQ ts it else it) = db.items := by
      simp
    rw [this]
  rw [hinit] at hmain
  show (List.foldl (upsertRow ts) db ((get_items_df db).map itemToRow)).items = _
  rw [hmain]
  apply List.map_congr_left
  intro it hit
  have hmemid : it.id ∈ (get_items_df db).map Item.id := by
    rw [List.mem_map]
    exact ⟨it, hperm.mem_iff.2 hit, rfl⟩
  rw [if_pos (Or.inr hmemid)]
  simp [dblQ, two_mul]

/-- Witness for claim C8: a two-record store whose re-imported backup
doubles both quantities in place. -/
theorem export_reimport_doubles_witness :
    (upsert_items_from_df "t2"
        (export_items ⟨[⟨2, some "B", none, none, 4, "u"⟩,
           ⟨1, some "A", some "Acme", none, 3, "u"⟩], []⟩)
        ⟨[⟨2, some "B", none, none, 4, "u"⟩,
          ⟨1, some "A", some "Acme", none, 3, "u"⟩], []⟩).items
      = [⟨2, some "B", none, none, 8, "t2"⟩,
         ⟨1, some "A", some "Acme", none, 6, "t2"⟩] := by
  have h := export_reimport_doubles "t2"
    ⟨[⟨2, some "B", none, none, 4, "u"⟩,
      ⟨1, some "A", some "Acme", none, 3, "u"⟩], []⟩ (by decide)
  rw [h.2]
  decide

end Inventory
